import Mathlib

/-!
Shallow embedding of the ML bid-prediction pipeline of
`bid_review_system/bids/ml/bid_predictor.py` (class `BidPredictor`),
together with proofs about the properties its specification states.

Conventions of the embedding:
* Python floats are modelled as rationals (`ℚ`); every constant appearing in
  the source (0.3, 0.2, 0.5, ...) is exact.
* Fallible operations return `Except Unit _` (or `Option`): a Python
  exception is the `error` case.
* The Django ORM is modelled by passing the full list of bids in the
  database explicitly; `bid.customer` is inlined into the bid record
  (`select_related`).
* `sklearn` objects are modelled by what the source observes of them:
  `LabelEncoder` stores its sorted distinct classes and codes are indices
  into them; `StandardScaler` records fittedness and the column count (its
  affine rescaling involves irrational square roots and feeds only the
  abstracted regressors, so the numeric row passes through); a
  `GradientBoostingRegressor` records its training set, and `fit` enforces
  the sklearn check that `X` and `y` carry the same nonzero number of
  samples.
-/

namespace BidReview

/-- Bid statuses, from `bids/models.py` `Bid.BidStatus` choices. -/
inductive BidStatus
  | draft
  | submitted
  | under_review
  | technical_review
  | commercial_review
  | approved
  | rejected
  | won
  | lost
  | cancelled
deriving DecidableEq

/-- The fields of `bids/models.py` `Customer` read by the ML pipeline.
`industry` has `blank=True`: the unset value is the empty string. -/
structure Customer where
  id : ℕ
  relationship_score : ℚ
  annual_revenue : Option ℚ
  customer_type : String
  industry : String
deriving DecidableEq

/-- The fields of `bids/models.py` `Bid` read by the ML pipeline.
`days_until_due` is the model property `(bid_due_date - today).days`
(`None` without a due date); `team_members_count` stands for
`bid.team_members.count()`; `requirements_size` is `len(bid.requirements)`
with `none` for SQL NULL. -/
structure Bid where
  id : ℕ
  customer : Customer
  status : BidStatus
  bid_value : Option ℚ
  estimated_cost : Option ℚ
  profit_margin : Option ℚ
  days_until_due : Option ℤ
  complexity_score : Option ℚ
  team_members_count : ℕ
  review_cycle : ℕ
  description : String
  requirements_size : Option ℕ
  business_unit : String
  bid_level : String
  priority : String
  complexity : String
  region : String
deriving DecidableEq

/-- Python `x or d` on an optional rational: both `None` and `0` are falsy. -/
def pyOrQ (x : Option ℚ) (d : ℚ) : ℚ :=
  match x with
  | none => d
  | some v => if v = 0 then d else v

/-- Python `x or d` on an optional integer: both `None` and `0` are falsy. -/
def pyOrZ (x : Option ℤ) (d : ℤ) : ℤ :=
  match x with
  | none => d
  | some v => if v = 0 then d else v

/-- The fixed-shape feature dict built by `BidPredictor._extract_features`,
with the fields in the insertion order of the source dict. -/
structure FeatureVec where
  bid_value : ℚ
  estimated_cost : ℚ
  profit_margin : ℚ
  days_until_due : ℚ
  complexity_score : ℚ
  customer_relationship_score : ℚ
  customer_annual_revenue : ℚ
  customer_type : String
  customer_industry : String
  historical_win_rate : ℚ
  avg_bid_value : ℚ
  team_size : ℚ
  review_cycle_count : ℚ
  description_length : ℚ
  requirements_count : ℚ
  business_unit : String
  bid_level : String
  priority : String
  complexity : String
  region : String
deriving DecidableEq

/-- Status counted as a win by the pipeline (`status in ['won', 'approved']`). -/
def isWonStatus (s : BidStatus) : Bool :=
  s = BidStatus.won || s = BidStatus.approved

/-- `BidPredictor._extract_features`: one bid (with its related customer) to
the fixed-shape feature vector.  `allBids` is the Bid table, scanned for the
customer's history exactly as `Bid.objects.filter(customer=customer)` is. -/
def _extract_features (allBids : List Bid) (bid : Bid) : FeatureVec :=
  let customer := bid.customer
  let customer_bids := allBids.filter (fun b => b.customer.id = customer.id)
  let total_bids := customer_bids.length
  let historical_win_rate : ℚ :=
    if 0 < total_bids then
      ((customer_bids.filter (fun b => isWonStatus b.status)).length : ℚ) / (total_bids : ℚ)
    else (1 : ℚ) / 2
  let present := customer_bids.filterMap (fun b => b.bid_value)
  let avg_bid_value : ℚ :=
    pyOrQ (if present = [] then none else some (present.sum / (present.length : ℚ))) 0
  { bid_value := pyOrQ bid.bid_value 0
    estimated_cost := pyOrQ bid.estimated_cost 0
    profit_margin := pyOrQ bid.profit_margin 0
    days_until_due := ((pyOrZ bid.days_until_due 0 : ℤ) : ℚ)
    complexity_score := pyOrQ bid.complexity_score (1 / 2)
    customer_relationship_score := customer.relationship_score
    customer_annual_revenue := pyOrQ customer.annual_revenue 0
    customer_type := customer.customer_type
    customer_industry := if customer.industry = "" then "unknown" else customer.industry
    historical_win_rate := historical_win_rate
    avg_bid_value := avg_bid_value
    team_size := ((bid.team_members_count + 1 : ℕ) : ℚ)
    review_cycle_count := ((bid.review_cycle : ℕ) : ℚ)
    description_length := ((bid.description.length : ℕ) : ℚ)
    requirements_count := ((bid.requirements_size.getD 0 : ℕ) : ℚ)
    business_unit := bid.business_unit
    bid_level := bid.bid_level
    priority := bid.priority
    complexity := bid.complexity
    region := bid.region }

/-- One row of the training dataframe built by
`BidPredictor.prepare_training_data`: the feature dict plus the `target`
label and the `bid_id` column. -/
structure TrainRow where
  features : FeatureVec
  target : ℕ
  bid_id : String
deriving DecidableEq

/-- Statuses eligible for training
(`status__in=['won', 'lost', 'approved', 'rejected']`). -/
def eligibleStatus (s : BidStatus) : Bool :=
  s = BidStatus.won || s = BidStatus.lost ||
  s = BidStatus.approved || s = BidStatus.rejected

/-- `BidPredictor.prepare_training_data`. -/
def prepare_training_data (allBids : List Bid) : List TrainRow :=
  (allBids.filter (fun b => eligibleStatus b.status)).map (fun b =>
    { features := _extract_features allBids b
      target := if isWonStatus b.status then 1 else 0
      bid_id := toString b.id })

/-- The loop body of `BidPredictor._calculate_risk_scores` for one dataframe
row: sequential additions followed by the clamp to [0, 1]. -/
def riskOfRow (row : FeatureVec) : ℚ :=
  let risk : ℚ := 0
  let risk := if row.bid_value > 1000000 then risk + 0.3 else risk
  let risk := if row.customer_relationship_score < 30 then risk + 0.2 else risk
  let risk := if row.complexity_score > 0.7 then risk + 0.2 else risk
  let risk := if row.days_until_due < 7 then risk + 0.2 else risk
  min (max risk 0) 1

/-- `BidPredictor._calculate_risk_scores`: the synthetic risk label of every
row of the training dataframe. -/
def _calculate_risk_scores (df : List TrainRow) : List ℚ :=
  df.map (fun r => riskOfRow r.features)

/-- Modelled from the spec (refinement reference, not from the source): the
risk-label rule exactly as §4.3 words it — start at 0, add 0.3 if
`bid_value > 1,000,000`, 0.2 if `customer_relationship_score < 30`, 0.2 if
`complexity_score > 0.7`, 0.2 if `days_until_due < 7`, clamp to [0, 1]. -/
def riskLabelSpec (bid_value relationship_score complexity_score days_until_due : ℚ) : ℚ :=
  min (max ((if bid_value > 1000000 then (0.3 : ℚ) else 0) +
    (if relationship_score < 30 then (0.2 : ℚ) else 0) +
    (if complexity_score > 0.7 then (0.2 : ℚ) else 0) +
    (if days_until_due < 7 then (0.2 : ℚ) else 0)) 0) 1

/-- A value of the feature dict: Python float (here `ℚ`) or string. -/
inductive FeatVal
  | num (q : ℚ)
  | str (s : String)
deriving DecidableEq

/-- The feature dict of `_extract_features` as the key/value list the source
builds, in insertion order. -/
def FeatureVec.toPairs (f : FeatureVec) : List (String × FeatVal) :=
  [("bid_value", .num f.bid_value),
   ("estimated_cost", .num f.estimated_cost),
   ("profit_margin", .num f.profit_margin),
   ("days_until_due", .num f.days_until_due),
   ("complexity_score", .num f.complexity_score),
   ("customer_relationship_score", .num f.customer_relationship_score),
   ("customer_annual_revenue", .num f.customer_annual_revenue),
   ("customer_type", .str f.customer_type),
   ("customer_industry", .str f.customer_industry),
   ("historical_win_rate", .num f.historical_win_rate),
   ("avg_bid_value", .num f.avg_bid_value),
   ("team_size", .num f.team_size),
   ("review_cycle_count", .num f.review_cycle_count),
   ("description_length", .num f.description_length),
   ("requirements_count", .num f.requirements_count),
   ("business_unit", .str f.business_unit),
   ("bid_level", .str f.bid_level),
   ("priority", .str f.priority),
   ("complexity", .str f.complexity),
   ("region", .str f.region)]

/-- Insertion step of the string sort used to model `np.unique`. -/
def insertStr (s : String) : List String → List String
  | [] => [s]
  | t :: ts => if s ≤ t then s :: t :: ts else t :: insertStr s ts

/-- Sorting a list of strings (insertion sort). -/
def sortStr : List String → List String
  | [] => []
  | s :: ss => insertStr s (sortStr ss)

/-- `LabelEncoder.fit`: `classes_ = np.unique(values)`, the sorted distinct
values of the fitted column. -/
def encFit (vals : List String) : List String :=
  sortStr vals.dedup

/-- Index of a string in a class list (`np.searchsorted` on exact match):
`none` when absent. -/
def idxOfStr (v : String) : List String → Option ℕ
  | [] => none
  | c :: cs => if c = v then some 0 else (idxOfStr v cs).map (· + 1)

/-- `LabelEncoder.transform` on one value: its integer code, or `none` for a
value unseen during fit (sklearn raises `ValueError`). -/
def encTransform (classes : List String) (v : String) : Option ℕ :=
  idxOfStr v classes

/-- `LabelEncoder.fit_transform`: the fitted classes and the code of every
input value. -/
def encFitTransform (vals : List String) : List String × List (Option ℕ) :=
  (encFit vals, vals.map (encTransform (encFit vals)))

/-- Per-column encoder state of the predictor
(`self.label_encoders`: column name to fitted classes). -/
abbrev Encoders := List (String × List String)

/-- The object-dtype (string-valued) feature columns with their projections,
in dataframe column order — what
`X.select_dtypes(include=['object']).columns` yields. -/
def catCols : List (String × (FeatureVec → String)) :=
  [("customer_type", FeatureVec.customer_type),
   ("customer_industry", FeatureVec.customer_industry),
   ("business_unit", FeatureVec.business_unit),
   ("bid_level", FeatureVec.bid_level),
   ("priority", FeatureVec.priority),
   ("complexity", FeatureVec.complexity),
   ("region", FeatureVec.region)]

/-- One column step of `BidPredictor._encode_features`: fit a fresh encoder
when the column is new, otherwise transform with the stored one, raising
(`ValueError`) if any value of the column was unseen during fit.  The error
value carries the encoders fitted so far, since `self.label_encoders` is
updated in place before a later column can fail. -/
def encodeColumn (encs : Encoders) (X : List FeatureVec)
    (col : String × (FeatureVec → String)) : Except Encoders Encoders :=
  match encs.lookup col.1 with
  | none => .ok (encs ++ [(col.1, encFit (X.map col.2))])
  | some classes =>
      if X.all (fun r => (encTransform classes (col.2 r)).isSome) then .ok encs
      else .error encs

/-- The column loop of `BidPredictor._encode_features` over the categorical
columns, threading the mutated encoder state. -/
def encodeColumns (encs : Encoders) (X : List FeatureVec) :
    List (String × (FeatureVec → String)) → Except Encoders Encoders
  | [] => .ok encs
  | c :: cs =>
    match encodeColumn encs X c with
    | .ok encs' => encodeColumns encs' X cs
    | .error e => .error e

/-- One categorical entry of an encoded row: the integer code under the
column's fitted encoder; a column with no fitted encoder keeps its raw
string (the source loop leaves such a column untouched — the scaler then
rejects it); an unseen value raises. -/
def catEntry (encs : Encoders) (col : String) (v : String) : Except Unit FeatVal :=
  match encs.lookup col with
  | none => .ok (.str v)
  | some classes =>
    match encTransform classes v with
    | some c => .ok (.num (c : ℚ))
    | none => .error ()

/-- One encoded feature row, in dataframe column order: the categorical
entries replaced by their codes where an encoder exists. -/
def encodeRow (encs : Encoders) (f : FeatureVec) : Except Unit (List FeatVal) := do
  let ct ← catEntry encs "customer_type" f.customer_type
  let ci ← catEntry encs "customer_industry" f.customer_industry
  let bu ← catEntry encs "business_unit" f.business_unit
  let bl ← catEntry encs "bid_level" f.bid_level
  let pr ← catEntry encs "priority" f.priority
  let cx ← catEntry encs "complexity" f.complexity
  let rg ← catEntry encs "region" f.region
  Except.ok
    [.num f.bid_value, .num f.estimated_cost, .num f.profit_margin,
     .num f.days_until_due, .num f.complexity_score,
     .num f.customer_relationship_score, .num f.customer_annual_revenue,
     ct, ci, .num f.historical_win_rate, .num f.avg_bid_value,
     .num f.team_size, .num f.review_cycle_count, .num f.description_length,
     .num f.requirements_count, bu, bl, pr, cx, rg]

/-- Encoding of the whole training matrix after the encoders were fitted
(the transform half of `_encode_features`). -/
def encodeRows (encs : Encoders) : List FeatureVec → Except Unit (List (List FeatVal))
  | [] => .ok []
  | f :: fs =>
    match encodeRow encs f, encodeRows encs fs with
    | .ok r, .ok rs => .ok (r :: rs)
    | .error e, _ => .error e
    | _, .error e => .error e

/-- `StandardScaler` state once fitted.  Per-column standardization is an
affine map with irrational scale (a square root of the variance); no claim
observes the scaled values — they feed only the abstracted regressors — so
only the fittedness and the column-count check are modelled, and the
numeric row passes through. -/
structure ScalerParams where
  n_features : ℕ
deriving DecidableEq

/-- A numeric dataframe entry; a leftover string makes the scaler raise. -/
def numOnly : FeatVal → Except Unit ℚ
  | .num q => .ok q
  | .str _ => .error ()

/-- Numeric contents of one row (the array conversion inside the scaler). -/
def rowNums : List FeatVal → Except Unit (List ℚ)
  | [] => .ok []
  | x :: xs =>
    match numOnly x, rowNums xs with
    | .ok q, .ok qs => .ok (q :: qs)
    | .error e, _ => .error e
    | _, .error e => .error e

/-- Numeric contents of the whole matrix. -/
def matrixNums : List (List FeatVal) → Except Unit (List (List ℚ))
  | [] => .ok []
  | r :: rs =>
    match rowNums r, matrixNums rs with
    | .ok q, .ok qs => .ok (q :: qs)
    | .error e, _ => .error e
    | _, .error e => .error e

/-- `StandardScaler.fit_transform` on the encoded training matrix: record
the column count, reject non-numeric entries (see `ScalerParams`). -/
def scalerFitTransform (Xr : List (List FeatVal)) :
    Except Unit (Option ScalerParams × List (List ℚ)) :=
  match matrixNums Xr with
  | .ok qs => .ok (some ⟨(Xr.headD []).length⟩, qs)
  | .error e => .error e

/-- `StandardScaler.transform` on one row: raises `NotFittedError` when the
scaler was never fitted, and rejects a wrong column count or a leftover
string entry. -/
def scalerTransformRow (sc : Option ScalerParams) (row : List FeatVal) :
    Except Unit (List ℚ) :=
  match sc with
  | none => .error ()
  | some p =>
    match rowNums row with
    | .error e => .error e
    | .ok qs => if qs.length = p.n_features then .ok qs else .error ()

/-- A `GradientBoostingRegressor`: unfitted as constructed, or fitted on a
recorded training set.  The learned regression function is opaque to every
claim, so a fitted model predicts the mean label. -/
inductive GBR
  | unfitted
  | fitted (X : List (List ℚ)) (y : List ℚ)
deriving DecidableEq

/-- `GradientBoostingRegressor.fit`: sklearn `check_X_y` demands the same
nonzero number of samples in `X` and `y`. -/
def GBR.fitOn (X : List (List ℚ)) (y : List ℚ) : Except Unit GBR :=
  if X.length = y.length ∧ 0 < X.length then .ok (.fitted X y) else .error ()

/-- `model.predict` on one row: raises `NotFittedError` when unfitted. -/
def GBR.predictOne : GBR → List ℚ → Except Unit ℚ
  | .unfitted, _ => .error ()
  | .fitted _ y, _ => .ok (y.sum / (y.length : ℚ))

/-- In-memory state of a `BidPredictor` instance.  `__init__` gives
`⟨none, none, none, []⟩`: no models, an unfitted `StandardScaler()`, an
empty encoder dict. -/
structure MLState where
  win_predictor : Option GBR
  risk_predictor : Option GBR
  scaler : Option ScalerParams
  label_encoders : Encoders
deriving DecidableEq

/-- Content of one artifact file on disk: data that unpickles to a value, or
corrupt data on which `joblib.load` raises. -/
inductive Pickled (α : Type)
  | corrupt
  | val (a : α)
deriving DecidableEq

/-- An artifact file slot: `none` when the file does not exist. -/
abbrev PickleFile (α : Type) := Option (Pickled α)

/-- The durable artifact directory (`settings.ML_MODELS_DIR`).  The model
files hold whatever Python object was dumped — for the model slots an
`Option GBR`, since `self.win_predictor` may be `None`.  The feature
importance file's content is opaque to every claim. -/
structure Storage where
  win_predictor_pkl : PickleFile (Option GBR)
  risk_predictor_pkl : PickleFile (Option GBR)
  scaler_pkl : PickleFile (Option ScalerParams)
  label_encoders_pkl : PickleFile Encoders
  feature_importance_json : Option Unit
deriving DecidableEq

/-- `joblib.load` of one file: `none` when missing or corrupt (raises). -/
def loadFile {α : Type} : PickleFile α → Option α
  | some (.val a) => some a
  | _ => none

/-- `BidPredictor._models_exist`: all four pickle files exist on disk. -/
def _models_exist (sto : Storage) : Bool :=
  sto.win_predictor_pkl.isSome && sto.risk_predictor_pkl.isSome &&
  sto.scaler_pkl.isSome && sto.label_encoders_pkl.isSome

/-- `BidPredictor.load_models`: loads the four artifacts in order, assigning
each to `self` as it goes; the first failure is logged and re-raised,
leaving the fields loaded so far assigned.  Returns the mutated state and
whether every load succeeded. -/
def load_models (st : MLState) (sto : Storage) : MLState × Bool :=
  match loadFile sto.win_predictor_pkl with
  | none => (st, false)
  | some w =>
    let st1 := { st with win_predictor := w }
    match loadFile sto.risk_predictor_pkl with
    | none => (st1, false)
    | some r =>
      let st2 := { st1 with risk_predictor := r }
      match loadFile sto.scaler_pkl with
      | none => (st2, false)
      | some s =>
        let st3 := { st2 with scaler := s }
        match loadFile sto.label_encoders_pkl with
        | none => (st3, false)
        | some e => ({ st3 with label_encoders := e }, true)

/-- `BidPredictor.save_models`: dump the four in-memory artifacts (write
errors are logged, not raised; the write itself is modelled as succeeding). -/
def save_models (st : MLState) (sto : Storage) : Storage :=
  { sto with
    win_predictor_pkl := some (.val st.win_predictor)
    risk_predictor_pkl := some (.val st.risk_predictor)
    scaler_pkl := some (.val st.scaler)
    label_encoders_pkl := some (.val st.label_encoders) }

/-- `BidPredictor._save_feature_importance`: returns early when
`self.win_predictor is None`; reading `feature_importances_` off an
unfitted model raises, which the internal try/except only logs. -/
def _save_feature_importance (st : MLState) (sto : Storage) : Storage :=
  match st.win_predictor with
  | none => sto
  | some .unfitted => sto
  | some (.fitted _ _) => { sto with feature_importance_json := some () }

/-- Number of test samples chosen by `train_test_split` with
`test_size=0.2`: `ceil(0.2 * n)`, as sklearn computes it. -/
def testCount (n : ℕ) : ℕ := (n + 4) / 5

/-- `train_test_split(..., test_size=0.2, random_state=42)`.  The seeded
shuffle is abstracted — no claim observes which rows land in which split —
leaving the observable sizes: `n_test = ceil(n/5)` and
`n_train = n - n_test`. -/
def train_test_split {α β : Type} (X : List α) (y : List β) :
    List α × List α × List β × List β :=
  let nTest := testCount X.length
  (X.drop nTest, X.take nTest, y.drop nTest, y.take nTest)

/-- Observable side effects of one `train_models` call, used to state the
no-op claims: whether feature extraction ran, whether any fit or
fit_transform ran, and whether artifact files were written. -/
structure TrainEffects where
  extracted : Bool
  fitted : Bool
  wrote : Bool
deriving DecidableEq

/-- Everything one `train_models` call leaves behind. -/
structure TrainResult where
  state : MLState
  storage : Storage
  raised : Bool
  effects : TrainEffects
deriving DecidableEq

/-- The model-fitting tail of `train_models` (lines 122–165): split the
scaled matrix, fit the win model, compute the synthetic risk labels over
the whole dataframe, fit the risk model — on the 80% training split but
against all-rows labels — and on success save the artifacts and the feature
importance.  A failed fit propagates (the source has no try here); note the
risk regressor object is assigned to `self` before its `fit` call. -/
def trainFits (st : MLState) (sto : Storage) (df : List TrainRow)
    (X_scaled : List (List ℚ)) : TrainResult :=
  let split := train_test_split X_scaled (df.map (fun r => (r.target : ℚ)))
  let X_train := split.1
  let y_train := split.2.2.1
  match GBR.fitOn X_train y_train with
  | .error _ =>
    { state := st, storage := sto, raised := true, effects := ⟨true, true, false⟩ }
  | .ok winM =>
    let st1 := { st with win_predictor := some winM }
    let risk_scores := _calculate_risk_scores df
    let st2 := { st1 with risk_predictor := some .unfitted }
    match GBR.fitOn X_train risk_scores with
    | .error _ =>
      { state := st2, storage := sto, raised := true, effects := ⟨true, true, false⟩ }
    | .ok riskM =>
      let st3 := { st2 with risk_predictor := some riskM }
      let sto1 := _save_feature_importance st3 (save_models st3 sto)
      { state := st3, storage := sto1, raised := false, effects := ⟨true, true, true⟩ }

/-- `train_models` after the training dataframe was built: the
insufficient-data guard, then `_encode_features` (fit/validate the column
encoders, then encode the matrix), `scaler.fit_transform`, and the fits. -/
def trainOnData (st : MLState) (sto : Storage) (df : List TrainRow) : TrainResult :=
  if df = [] ∨ df.length < 10 then
    { state := st, storage := sto, raised := false, effects := ⟨true, false, false⟩ }
  else
    match encodeColumns st.label_encoders (df.map (fun r => r.features)) catCols with
    | .error p =>
      { state := { st with label_encoders := p }, storage := sto,
        raised := true, effects := ⟨true, true, false⟩ }
    | .ok encs =>
      let st1 := { st with label_encoders := encs }
      match encodeRows encs (df.map (fun r => r.features)) with
      | .error _ =>
        { state := st1, storage := sto, raised := true, effects := ⟨true, true, false⟩ }
      | .ok xrows =>
        match scalerFitTransform xrows with
        | .error _ =>
          { state := st1, storage := sto, raised := true, effects := ⟨true, true, false⟩ }
        | .ok (sp, X_scaled) => trainFits { st1 with scaler := sp } sto df X_scaled

/-- `BidPredictor.train_models(retrain)`: short-circuit to `load_models`
when `retrain` is false and all four artifact files exist (a load failure
re-raises out of `train_models`); otherwise build the training dataframe
and train. -/
def train_models (st : MLState) (sto : Storage) (allBids : List Bid)
    (retrain : Bool) : TrainResult :=
  if retrain = false ∧ _models_exist sto = true then
    let p := load_models st sto
    { state := p.1, storage := sto, raised := !p.2, effects := ⟨false, false, false⟩ }
  else
    trainOnData st sto (prepare_training_data allBids)

/-- The dict `predict_for_bid` returns.  The fallback dict of
`_get_default_prediction` has no timestamp key (`timestamp := none`). -/
structure Prediction where
  win_probability : ℚ
  risk_score : ℚ
  confidence : ℚ
  features : List (String × FeatVal)
  timestamp : Option String
deriving DecidableEq

/-- `BidPredictor._get_default_prediction`. -/
def _get_default_prediction : Prediction :=
  { win_probability := 0.5, risk_score := 0.5, confidence := 0.5,
    features := [], timestamp := none }

/-- The try-block of `predict_for_bid`: encode the categorical entries with
the stored encoders (an unseen value raises), scale, and run both models.
Any failure is caught by the surrounding `except`. -/
def predictPipeline (st : MLState) (fv : FeatureVec) : Except Unit (ℚ × ℚ) := do
  let row ← encodeRow st.label_encoders fv
  let xs ← scalerTransformRow st.scaler row
  let wm ← match st.win_predictor with
    | none => Except.error ()
    | some m => Except.ok m
  let win_probability ← wm.predictOne xs
  let rm ← match st.risk_predictor with
    | none => Except.error ()
    | some m => Except.ok m
  let risk_score ← rm.predictOne xs
  Except.ok (win_probability, risk_score)

/-- `BidPredictor.predict_for_bid`: lazy-load when no model is in memory
(falling back to the default on a load failure), extract features, then run
the pipeline, falling back to the default on any exception.  `now` stands
for `datetime.now().isoformat()`. -/
def predict_for_bid (st : MLState) (sto : Storage) (allBids : List Bid)
    (bid : Bid) (now : String) : Prediction :=
  let p :=
    match st.win_predictor with
    | none => load_models st sto
    | some _ => (st, true)
  if p.2 = false then _get_default_prediction
  else
    let features := _extract_features allBids bid
    match predictPipeline p.1 features with
    | .ok (wp, rs) =>
      { win_probability := wp, risk_score := rs, confidence := 0.8,
        features := features.toPairs, timestamp := some now }
    | .error _ => _get_default_prediction

/-- `list(set(xs))` on the recommendation strings.  Membership and
distinctness are what the source guarantees; the iteration order of a
Python set is unspecified and no claim depends on it — `dedup` is one
linearization. -/
def pySetToList (xs : List String) : List String := xs.dedup

/-- `features.get(key, 0)` followed by a numeric comparison: a missing key
reads as 0; a string value would raise `TypeError` (uncaught in the
source). -/
def featNum (features : List (String × FeatVal)) (key : String) : Except Unit ℚ :=
  match features.lookup key with
  | none => .ok 0
  | some (.num q) => .ok q
  | some (.str _) => .error ()

/-- `BidPredictor.get_recommendations`: threshold blocks on the prediction,
two feature-specific additions, then `list(set(...))`.  The `bid` argument
is unused by the source body. -/
def get_recommendations (_bid : Bid) (prediction : Prediction) :
    Except Unit (List String) :=
  match featNum prediction.features "customer_relationship_score",
        featNum prediction.features "days_until_due" with
  | .ok rel, .ok due =>
    .ok (pySetToList (
      (if prediction.win_probability < 0.3 then
        ["Consider revising bid strategy",
         "Strengthen customer relationship",
         "Review pricing strategy",
         "Enhance technical proposal"]
       else if prediction.win_probability < 0.6 then
        ["Focus on key differentiators",
         "Clarify scope and deliverables",
         "Strengthen risk mitigation plan",
         "Review competitive positioning"]
       else []) ++
      (if prediction.risk_score > 0.7 then
        ["Implement enhanced risk monitoring",
         "Develop contingency plans",
         "Increase management oversight"]
       else []) ++
      (if rel < 40 then ["Schedule customer engagement meetings"] else []) ++
      (if due < 14 then ["Accelerate review and approval process"] else [])))
  | .error e, _ => .error e
  | _, .error e => .error e

/-! Concrete fixtures used by witnesses and counterexamples. -/

/-- A customer with no special fields set. -/
def sampleCustomer : Customer :=
  { id := 1, relationship_score := 50, annual_revenue := none,
    customer_type := "enterprise", industry := "" }

/-- A draft bid of `sampleCustomer` with every optional field unset. -/
def sampleBid : Bid :=
  { id := 1, customer := sampleCustomer, status := .draft,
    bid_value := none, estimated_cost := none, profit_margin := none,
    days_until_due := none, complexity_score := none,
    team_members_count := 0, review_cycle := 1, description := "",
    requirements_size := none, business_unit := "JIS", bid_level := "C",
    priority := "medium", complexity := "moderate", region := "EMEA" }

/-- The state of a freshly constructed `BidPredictor()`. -/
def emptyState : MLState := ⟨none, none, none, []⟩

/-- An artifact directory with no files. -/
def emptyStorage : Storage := ⟨none, none, none, none, none⟩

/-- A feature vector with the four risk-relevant fields set and every other
field fixed to plausible constants. -/
def mkRiskFeat (bv rel cx due : ℚ) : FeatureVec :=
  { bid_value := bv, estimated_cost := 0, profit_margin := 0,
    days_until_due := due, complexity_score := cx,
    customer_relationship_score := rel, customer_annual_revenue := 0,
    customer_type := "enterprise", customer_industry := "unknown",
    historical_win_rate := 1 / 2, avg_bid_value := 0, team_size := 1,
    review_cycle_count := 1, description_length := 0,
    requirements_count := 0, business_unit := "JIS", bid_level := "C",
    priority := "medium", complexity := "moderate", region := "EMEA" }

/-! ## C2: the synthetic risk label -/

/-- Pointwise agreement between the source's sequential risk accumulation
and the spec's additive formulation. -/
theorem riskOfRow_eq_spec (fv : FeatureVec) :
    riskOfRow fv = riskLabelSpec fv.bid_value fv.customer_relationship_score
      fv.complexity_score fv.days_until_due := by
  simp only [riskOfRow, riskLabelSpec]
  split_ifs <;> norm_num

/-- C2: every training row's synthetic risk label is the clamp to [0,1] of
0, plus 0.3 if `bid_value > 1,000,000`, plus 0.2 if
`customer_relationship_score < 30`, plus 0.2 if `complexity_score > 0.7`,
plus 0.2 if `days_until_due < 7`; and the row
(bid_value=5000, relationship_score=80, complexity_score=0.1,
days_until_due=60) gets the label exactly 0. -/
theorem risk_labels_match_rule :
    (∀ df : List TrainRow, _calculate_risk_scores df =
      df.map (fun r => riskLabelSpec r.features.bid_value
        r.features.customer_relationship_score
        r.features.complexity_score r.features.days_until_due)) ∧
    _calculate_risk_scores [⟨mkRiskFeat 5000 80 0.1 60, 0, "b0"⟩] = [0] := by
  constructor
  · intro df
    simp only [_calculate_risk_scores]
    exact List.map_congr_left fun r _ => riskOfRow_eq_spec r.features
  · simp only [_calculate_risk_scores, List.map_cons, List.map_nil, riskOfRow, mkRiskFeat]
    norm_num

/-! ## C3: the spec's 1.0 example is actually 0.9 -/

/-- C3 counterexample: on the row (bid_value=2,000,000,
relationship_score=10, complexity_score=0.9, days_until_due=3) the risk
label is not 1.0 — the four addends sum to 0.9, and the clamp does not
raise it. -/
theorem risk_label_claim3_counterexample :
    _calculate_risk_scores [⟨mkRiskFeat 2000000 10 0.9 3, 0, "b1"⟩] ≠ [1] := by
  simp only [_calculate_risk_scores, List.map_cons, List.map_nil, riskOfRow, mkRiskFeat]
  norm_num

/-- C3 (amended): on that row the risk label is exactly 0.9
(= 0.3 + 0.2 + 0.2 + 0.2; the clamp to [0,1] leaves it unchanged). -/
theorem risk_label_claim3_value :
    _calculate_risk_scores [⟨mkRiskFeat 2000000 10 0.9 3, 0, "b1"⟩] = [0.9] := by
  simp only [_calculate_risk_scores, List.map_cons, List.map_nil, riskOfRow, mkRiskFeat]
  norm_num

/-! ## C6: the nine-recommendation example and set semantics -/

/-- The prediction dict of the C6 example. -/
def predC6 : Prediction :=
  { win_probability := 0.2, risk_score := 0.8, confidence := 0.8,
    features := [("customer_relationship_score", .num 20),
                 ("days_until_due", .num 5)],
    timestamp := none }

/-- Evaluation of the recommendation generator on the C6 example. -/
theorem get_recommendations_predC6 :
    get_recommendations sampleBid predC6 =
      Except.ok ["Consider revising bid strategy", "Strengthen customer relationship",
        "Review pricing strategy", "Enhance technical proposal",
        "Implement enhanced risk monitoring", "Develop contingency plans",
        "Increase management oversight", "Schedule customer engagement meetings",
        "Accelerate review and approval process"] := by
  have e1 : featNum predC6.features "customer_relationship_score" = Except.ok 20 := rfl
  have e2 : featNum predC6.features "days_until_due" = Except.ok 5 := rfl
  simp only [get_recommendations, e1, e2, pySetToList, Except.ok.injEq]
  norm_num [predC6]
  decide

/-- C6: on {win_probability 0.2, risk_score 0.8, features
{customer_relationship_score 20, days_until_due 5}} the recommendations are
exactly the nine distinct strings of the four strategy-revision, three
risk-mitigation, engagement and acceleration recommendations; and for every
input the output list is duplicate-free. -/
theorem recommendations_nine_distinct :
    (∃ l : List String,
      get_recommendations sampleBid predC6 = Except.ok l ∧
      l.length = 9 ∧ l.Nodup ∧
      l.toFinset = {"Consider revising bid strategy",
        "Strengthen customer relationship", "Review pricing strategy",
        "Enhance technical proposal", "Implement enhanced risk monitoring",
        "Develop contingency plans", "Increase management oversight",
        "Schedule customer engagement meetings",
        "Accelerate review and approval process"}) ∧
    (∀ (b : Bid) (p : Prediction) (l : List String),
      get_recommendations b p = Except.ok l → l.Nodup) := by
  constructor
  · exact ⟨_, get_recommendations_predC6, rfl, by decide, by decide⟩
  · intro b p l h
    cases h1 : featNum p.features "customer_relationship_score" with
    | error e =>
      simp only [get_recommendations, h1] at h
      exact Except.noConfusion h
    | ok rel =>
      cases h2 : featNum p.features "days_until_due" with
      | error e =>
        simp only [get_recommendations, h1, h2] at h
        exact Except.noConfusion h
      | ok due =>
        simp only [get_recommendations, h1, h2, Except.ok.injEq] at h
        rw [← h]
        exact List.nodup_dedup _

/-- C6 witness: the concrete nine-element output is duplicate-free. -/
theorem recommendations_nine_distinct_witness :
    (["Consider revising bid strategy", "Strengthen customer relationship",
      "Review pricing strategy", "Enhance technical proposal",
      "Implement enhanced risk monitoring", "Develop contingency plans",
      "Increase management oversight", "Schedule customer engagement meetings",
      "Accelerate review and approval process"] : List String).Nodup :=
  recommendations_nine_distinct.2 sampleBid predC6
    ["Consider revising bid strategy", "Strengthen customer relationship",
     "Review pricing strategy", "Enhance technical proposal",
     "Implement enhanced risk monitoring", "Develop contingency plans",
     "Increase management oversight", "Schedule customer engagement meetings",
     "Accelerate review and approval process"] get_recommendations_predC6

/-! ## C10: empty feature dict always triggers engagement and acceleration -/

/-- C10: for every prediction whose features dict is empty — the default
fallback among them — the missing `customer_relationship_score` and
`days_until_due` read as 0, so both the customer-engagement and the
accelerate-review recommendations are produced. -/
theorem recommendations_empty_features (b : Bid) (p : Prediction)
    (hf : p.features = []) :
    (_get_default_prediction).features = [] ∧
    ∃ l, get_recommendations b p = Except.ok l ∧
      "Schedule customer engagement meetings" ∈ l ∧
      "Accelerate review and approval process" ∈ l := by
  have h1 : featNum p.features "customer_relationship_score" = Except.ok 0 := by
    rw [hf]; rfl
  have h2 : featNum p.features "days_until_due" = Except.ok 0 := by
    rw [hf]; rfl
  refine ⟨rfl, pySetToList (
      (if p.win_probability < 0.3 then
        ["Consider revising bid strategy", "Strengthen customer relationship",
         "Review pricing strategy", "Enhance technical proposal"]
       else if p.win_probability < 0.6 then
        ["Focus on key differentiators", "Clarify scope and deliverables",
         "Strengthen risk mitigation plan", "Review competitive positioning"]
       else []) ++
      (if p.risk_score > 0.7 then
        ["Implement enhanced risk monitoring", "Develop contingency plans",
         "Increase management oversight"]
       else []) ++
      ["Schedule customer engagement meetings"] ++
      ["Accelerate review and approval process"]), ?_, ?_, ?_⟩
  · simp only [get_recommendations, h1, h2]
    norm_num
  · simp [pySetToList, List.mem_dedup]
  · simp [pySetToList, List.mem_dedup]

/-- C10 witness: applied to the default fallback prediction itself. -/
theorem recommendations_empty_features_witness :
    "Schedule customer engagement meetings" ∈
      (["Focus on key differentiators", "Clarify scope and deliverables",
        "Strengthen risk mitigation plan", "Review competitive positioning",
        "Schedule customer engagement meetings",
        "Accelerate review and approval process"] : List String) ∧
    "Accelerate review and approval process" ∈
      (["Focus on key differentiators", "Clarify scope and deliverables",
        "Strengthen risk mitigation plan", "Review competitive positioning",
        "Schedule customer engagement meetings",
        "Accelerate review and approval process"] : List String) := by
  obtain ⟨-, l, hl, m1, m2⟩ :=
    recommendations_empty_features sampleBid _get_default_prediction rfl
  have hl2 : get_recommendations sampleBid _get_default_prediction =
      Except.ok ["Focus on key differentiators", "Clarify scope and deliverables",
        "Strengthen risk mitigation plan", "Review competitive positioning",
        "Schedule customer engagement meetings",
        "Accelerate review and approval process"] := by
    have h1 : featNum (_get_default_prediction).features
        "customer_relationship_score" = Except.ok 0 := rfl
    have h2 : featNum (_get_default_prediction).features
        "days_until_due" = Except.ok 0 := rfl
    simp only [get_recommendations, h1, h2, pySetToList, Except.ok.injEq]
    norm_num [_get_default_prediction]
    decide
  rw [hl2] at hl
  injection hl with h
  rw [← h] at m1 m2
  exact ⟨m1, m2⟩

/-! ## C1: every failure path of predict_for_bid yields the default result -/

/-- C1: whenever `predict_for_bid` cannot produce a model prediction — no
model in memory and the lazy load fails; or the load succeeds but the
encode/scale/predict pipeline raises (an unseen categorical value among the
causes); or a model is in memory and the pipeline raises — it returns,
without raising (the embedding is a total function), exactly the default
result {win_probability 0.5, risk_score 0.5, confidence 0.5, empty
features}. -/
theorem predict_default_on_failure (st : MLState) (sto : Storage)
    (allBids : List Bid) (bid : Bid) (now : String) :
    ((st.win_predictor = none ∧ (load_models st sto).2 = false) →
      predict_for_bid st sto allBids bid now = _get_default_prediction) ∧
    ((st.win_predictor = none ∧ (load_models st sto).2 = true ∧
        predictPipeline (load_models st sto).1 (_extract_features allBids bid) =
          Except.error ()) →
      predict_for_bid st sto allBids bid now = _get_default_prediction) ∧
    ((st.win_predictor ≠ none ∧
        predictPipeline st (_extract_features allBids bid) = Except.error ()) →
      predict_for_bid st sto allBids bid now = _get_default_prediction) ∧
    _get_default_prediction =
      { win_probability := 0.5, risk_score := 0.5, confidence := 0.5,
        features := [], timestamp := none } := by
  refine ⟨?_, ?_, ?_, rfl⟩
  · rintro ⟨hw, hl⟩
    simp [predict_for_bid, hw, hl]
  · rintro ⟨hw, hl, hp⟩
    simp [predict_for_bid, hw, hl, hp]
  · rintro ⟨hw, hp⟩
    obtain ⟨m, hm⟩ := Option.ne_none_iff_exists'.mp hw
    simp [predict_for_bid, hm, hp]

/-- An artifact set whose four files exist and unpickle, but whose model
slots hold `None` and whose scaler slot holds the unfitted scaler —
loading succeeds yet prediction then fails. -/
def stubbedStorage : Storage :=
  ⟨some (.val none), some (.val none), some (.val none), some (.val []), none⟩

/-- A state with an (unfitted) win model in memory and no fitted scaler. -/
def unfitState : MLState := ⟨some .unfitted, none, none, []⟩

/-- C1 witness: the three failure paths at concrete inputs — missing
artifacts, loadable-but-stubbed artifacts, and an in-memory model with a
failing pipeline — all return the default result. -/
theorem predict_default_on_failure_witness :
    predict_for_bid emptyState emptyStorage [] sampleBid "t" = _get_default_prediction ∧
    predict_for_bid emptyState stubbedStorage [] sampleBid "t" = _get_default_prediction ∧
    predict_for_bid unfitState emptyStorage [] sampleBid "t" = _get_default_prediction :=
  ⟨(predict_default_on_failure emptyState emptyStorage [] sampleBid "t").1 ⟨rfl, rfl⟩,
   (predict_default_on_failure emptyState stubbedStorage [] sampleBid "t").2.1
     ⟨rfl, rfl, rfl⟩,
   (predict_default_on_failure unfitState emptyStorage [] sampleBid "t").2.2.1
     ⟨by simp [unfitState], rfl⟩⟩

/-! ## C7: encoder fit/transform round-trip -/

/-- Membership is preserved by the insertion step of the sort. -/
theorem mem_insertStr {v s : String} {l : List String} :
    v ∈ insertStr s l ↔ v = s ∨ v ∈ l := by
  induction l with
  | nil => simp [insertStr]
  | cons t ts ih =>
    simp only [insertStr]
    split
    · simp [List.mem_cons]
    · simp only [List.mem_cons, ih]
      tauto

/-- Membership is preserved by the sort. -/
theorem mem_sortStr {v : String} {l : List String} :
    v ∈ sortStr l ↔ v ∈ l := by
  induction l with
  | nil => simp [sortStr]
  | cons s ss ih => simp [sortStr, mem_insertStr, ih]

/-- A member of a class list has an index. -/
theorem idxOfStr_of_mem {v : String} {l : List String} (h : v ∈ l) :
    ∃ n, idxOfStr v l = some n := by
  induction l with
  | nil => cases h
  | cons a t ih =>
    by_cases hav : a = v
    · exact ⟨0, by simp [idxOfStr, hav]⟩
    · have hvt : v ∈ t := by
        rcases List.mem_cons.mp h with h1 | h1
        · exact absurd h1.symm hav
        · exact h1
      obtain ⟨n, hn⟩ := ih hvt
      exact ⟨n + 1, by simp [idxOfStr, hav, hn]⟩

/-- A value present during fit transforms successfully. -/
theorem encTransform_encFit_of_mem {v : String} {vals : List String}
    (h : v ∈ vals) : ∃ c, encTransform (encFit vals) v = some c := by
  have hm : v ∈ encFit vals := by
    unfold encFit
    exact mem_sortStr.mpr (List.mem_dedup.mpr h)
  exact idxOfStr_of_mem hm

/-- C7: for every categorical column value present in the table passed to
`fit_transform`, a later `transform` of that same value succeeds and
returns exactly the integer code that `fit_transform` assigned it: both are
the value's index in the stored sorted class list, so they agree. -/
theorem encoder_round_trip (vals : List String) (i : ℕ) (h : i < vals.length) :
    ∃ c : ℕ, encTransform (encFit vals) (vals.get ⟨i, h⟩) = some c ∧
      (encFitTransform vals).2.get? i = some (some c) := by
  obtain ⟨c, hc⟩ := encTransform_encFit_of_mem (vals.get_mem i h)
  refine ⟨c, hc, ?_⟩
  have h2 : (encFitTransform vals).2 = vals.map (encTransform (encFit vals)) := rfl
  rw [h2, List.get?_map, List.get?_eq_get h, Option.map_some', hc]

/-- C7 witness: fitting on ["b", "b"] assigns the value at row 1 (a repeat
of "b") the code 0, and a later transform of "b" returns 0 again. -/
theorem encoder_round_trip_witness :
    encTransform (encFit ["b", "b"]) "b" = some 0 ∧
    (encFitTransform ["b", "b"]).2.get? 1 = some (some 0) := by
  obtain ⟨c, h1, h2⟩ := encoder_round_trip ["b", "b"] 1 (by decide)
  have h3 : some c = (some 0 : Option ℕ) := by rw [← h1]; decide
  injection h3 with h4
  rw [h4] at h1 h2
  exact ⟨h1, h2⟩

/-! ## C8: the historical win rate -/

/-- C8: a bid of a customer with no bids in the database gets
`historical_win_rate` exactly 0.5; with n > 0 bids it gets the number of
won/approved bids of that customer divided by n. -/
theorem historical_win_rate_cases (allBids : List Bid) (bid : Bid) :
    ((allBids.filter (fun b => b.customer.id = bid.customer.id)) = [] →
      (_extract_features allBids bid).historical_win_rate = 1 / 2) ∧
    (0 < (allBids.filter (fun b => b.customer.id = bid.customer.id)).length →
      (_extract_features allBids bid).historical_win_rate =
        (((allBids.filter (fun b => b.customer.id = bid.customer.id)).filter
            (fun b => isWonStatus b.status)).length : ℚ) /
          ((allBids.filter (fun b => b.customer.id = bid.customer.id)).length : ℚ)) := by
  constructor
  · intro h
    simp [_extract_features, h]
  · intro h
    simp only [_extract_features]
    rw [if_pos h]

/-- A won bid of `sampleCustomer`. -/
def wonBid : Bid := { sampleBid with id := 2, status := .won }

/-- A lost bid of `sampleCustomer`. -/
def lostBid : Bid := { sampleBid with id := 3, status := .lost }

/-- C8 witness: no customer history gives the 0.5 default; a history of one
won and one lost bid gives 1/2 as the won share. -/
theorem historical_win_rate_witness :
    (_extract_features [] sampleBid).historical_win_rate = 1 / 2 ∧
    (_extract_features [wonBid, lostBid] sampleBid).historical_win_rate = 1 / 2 := by
  constructor
  · exact (historical_win_rate_cases [] sampleBid).1 rfl
  · have h := (historical_win_rate_cases [wonBid, lostBid] sampleBid).2 (by decide)
    rw [h,
      show ([wonBid, lostBid].filter
        (fun b => b.customer.id = sampleBid.customer.id)).length = 2 from rfl,
      show (([wonBid, lostBid].filter
          (fun b => b.customer.id = sampleBid.customer.id)).filter
        (fun b => isWonStatus b.status)).length = 1 from rfl]
    norm_num

/-! ## C4: fewer than 10 eligible rows -/

/-- An artifact set whose four files exist and load as fitted models. -/
def fittedStorage : Storage :=
  ⟨some (.val (some (.fitted [[0]] [0]))), some (.val (some (.fitted [[0]] [0]))),
   some (.val (some ⟨20⟩)), some (.val []), none⟩

/-- C4 counterexample: with fewer than 10 eligible rows (an empty history)
but `retrain=False` and a complete loadable artifact set, `train_models`
never reaches the insufficient-data guard: it loads the artifacts, so the
in-memory models are modified (`win_predictor` changes from `None` to the
loaded model), contradicting the claim's "neither the in-memory models nor
any persisted artifact file is created, modified, or deleted". -/
theorem train_insufficient_data_counterexample :
    (train_models emptyState fittedStorage [] false).state.win_predictor ≠
      emptyState.win_predictor := by decide

/-- C4 (amended): for every historical bid set with fewer than 10 eligible
rows, provided training is not short-circuited — `retrain=True`, or the
artifact set on disk is incomplete — `train_models` returns without
raising and neither the in-memory models nor any artifact file is created,
modified, or deleted (with `retrain=False` and a complete loadable artifact
set it instead loads the artifacts into memory before the guard is
reached). -/
theorem train_insufficient_data_no_change (st : MLState) (sto : Storage)
    (allBids : List Bid) (retrain : Bool)
    (hpath : retrain = true ∨ _models_exist sto = false)
    (hfew : (prepare_training_data allBids).length < 10) :
    train_models st sto allBids retrain =
      { state := st, storage := sto, raised := false,
        effects := ⟨true, false, false⟩ } := by
  unfold train_models
  rw [if_neg]
  · unfold trainOnData
    rw [if_pos (Or.inr hfew)]
  · rintro ⟨h1, h2⟩
    rcases hpath with h | h
    · rw [h] at h1; exact Bool.noConfusion h1
    · rw [h] at h2; exact Bool.noConfusion h2

/-- C4 witness: retraining over an empty bid history changes nothing. -/
theorem train_insufficient_data_witness :
    train_models emptyState emptyStorage [] true =
      { state := emptyState, storage := emptyStorage, raised := false,
        effects := ⟨true, false, false⟩ } :=
  train_insufficient_data_no_change emptyState emptyStorage [] true
    (Or.inl rfl) (by decide)

/-! ## C5: retrain=False with a complete artifact set is a load-only no-op -/

/-- Evaluation of `joblib.load` on an intact file. -/
theorem loadFile_val {α : Type} (a : α) : loadFile (some (.val a)) = some a := rfl

/-- C5: when all four artifact files exist and load successfully,
`train_models` with `retrain=False` only loads them — no feature
extraction, no fitting, no writes, no raise — and a second call returns
the identical result (idempotent no-op). -/
theorem train_existing_artifacts_load_only (st : MLState) (sto : Storage)
    (allBids : List Bid) (w r : Option GBR) (s : Option ScalerParams)
    (e : Encoders)
    (hw : sto.win_predictor_pkl = some (.val w))
    (hr : sto.risk_predictor_pkl = some (.val r))
    (hs : sto.scaler_pkl = some (.val s))
    (he : sto.label_encoders_pkl = some (.val e)) :
    (train_models st sto allBids false).state = ⟨w, r, s, e⟩ ∧
    (train_models st sto allBids false).storage = sto ∧
    (train_models st sto allBids false).raised = false ∧
    (train_models st sto allBids false).effects = ⟨false, false, false⟩ ∧
    train_models (train_models st sto allBids false).state sto allBids false =
      train_models st sto allBids false := by
  have hex : _models_exist sto = true := by
    simp [_models_exist, hw, hr, hs, he]
  have hload : ∀ st0 : MLState, load_models st0 sto = (⟨w, r, s, e⟩, true) := by
    intro st0
    simp [load_models, hw, hr, hs, he, loadFile_val]
  have htm : ∀ st0 : MLState, train_models st0 sto allBids false =
      { state := ⟨w, r, s, e⟩, storage := sto, raised := false,
        effects := ⟨false, false, false⟩ } := by
    intro st0
    unfold train_models
    rw [if_pos ⟨rfl, hex⟩, hload st0]
    rfl
  refine ⟨by rw [htm st], by rw [htm st], by rw [htm st], by rw [htm st], ?_⟩
  rw [htm st, htm]

/-- C5 witness: a concrete complete artifact set, loaded twice. -/
theorem train_existing_artifacts_witness :
    (train_models emptyState fittedStorage [] false).state =
      ⟨some (.fitted [[0]] [0]), some (.fitted [[0]] [0]), some ⟨20⟩, []⟩ ∧
    (train_models emptyState fittedStorage [] false).storage = fittedStorage ∧
    (train_models emptyState fittedStorage [] false).raised = false ∧
    (train_models emptyState fittedStorage [] false).effects = ⟨false, false, false⟩ ∧
    train_models (train_models emptyState fittedStorage [] false).state
        fittedStorage [] false =
      train_models emptyState fittedStorage [] false :=
  train_existing_artifacts_load_only emptyState fittedStorage []
    (some (.fitted [[0]] [0])) (some (.fitted [[0]] [0])) (some ⟨20⟩) []
    rfl rfl rfl rfl

/-! ## C9: the risk-regressor fit always receives mismatched sample counts -/

/-- Reduction of monadic bind on a successful Except value. -/
theorem bind_ok {ε α β : Type} (a : α) (f : α → Except ε β) :
    (Except.ok a >>= f) = f a := rfl

/-- The encoders fitted by `_encode_features` on matrix `X` from an empty
encoder state: every categorical column gets a fresh encoder, in column
order. -/
def fitAllEncoders (X : List FeatureVec) : Encoders :=
  [("customer_type", encFit (X.map FeatureVec.customer_type)),
   ("customer_industry", encFit (X.map FeatureVec.customer_industry)),
   ("business_unit", encFit (X.map FeatureVec.business_unit)),
   ("bid_level", encFit (X.map FeatureVec.bid_level)),
   ("priority", encFit (X.map FeatureVec.priority)),
   ("complexity", encFit (X.map FeatureVec.complexity)),
   ("region", encFit (X.map FeatureVec.region))]

/-- From an empty encoder state the encoder-fit loop always succeeds and
fits every categorical column. -/
theorem encodeColumns_empty (X : List FeatureVec) :
    encodeColumns [] X catCols = .ok (fitAllEncoders X) := rfl

/-- Rows of numeric entries survive the scaler's array conversion. -/
theorem rowNums_map_num (qs : List ℚ) :
    rowNums (qs.map FeatVal.num) = .ok qs := by
  induction qs with
  | nil => rfl
  | cons q t ih => simp [rowNums, numOnly, ih]

/-- Matrices of numeric entries survive the scaler's array conversion. -/
theorem matrixNums_map (M : List (List ℚ)) :
    matrixNums (M.map (List.map FeatVal.num)) = .ok M := by
  induction M with
  | nil => rfl
  | cons r rs ih => simp [matrixNums, rowNums_map_num, ih]

/-- A row of the fitted training matrix encodes successfully: every
categorical value was present during fit. -/
theorem encodeRow_fitAll {X : List FeatureVec} {f : FeatureVec} (hf : f ∈ X) :
    ∃ qs : List ℚ, encodeRow (fitAllEncoders X) f = .ok (qs.map FeatVal.num) := by
  obtain ⟨c1, h1⟩ := encTransform_encFit_of_mem
    (List.mem_map_of_mem FeatureVec.customer_type hf)
  obtain ⟨c2, h2⟩ := encTransform_encFit_of_mem
    (List.mem_map_of_mem FeatureVec.customer_industry hf)
  obtain ⟨c3, h3⟩ := encTransform_encFit_of_mem
    (List.mem_map_of_mem FeatureVec.business_unit hf)
  obtain ⟨c4, h4⟩ := encTransform_encFit_of_mem
    (List.mem_map_of_mem FeatureVec.bid_level hf)
  obtain ⟨c5, h5⟩ := encTransform_encFit_of_mem
    (List.mem_map_of_mem FeatureVec.priority hf)
  obtain ⟨c6, h6⟩ := encTransform_encFit_of_mem
    (List.mem_map_of_mem FeatureVec.complexity hf)
  obtain ⟨c7, h7⟩ := encTransform_encFit_of_mem
    (List.mem_map_of_mem FeatureVec.region hf)
  have l1 : (fitAllEncoders X).lookup "customer_type" =
      some (encFit (X.map FeatureVec.customer_type)) := rfl
  have l2 : (fitAllEncoders X).lookup "customer_industry" =
      some (encFit (X.map FeatureVec.customer_industry)) := rfl
  have l3 : (fitAllEncoders X).lookup "business_unit" =
      some (encFit (X.map FeatureVec.business_unit)) := rfl
  have l4 : (fitAllEncoders X).lookup "bid_level" =
      some (encFit (X.map FeatureVec.bid_level)) := rfl
  have l5 : (fitAllEncoders X).lookup "priority" =
      some (encFit (X.map FeatureVec.priority)) := rfl
  have l6 : (fitAllEncoders X).lookup "complexity" =
      some (encFit (X.map FeatureVec.complexity)) := rfl
  have l7 : (fitAllEncoders X).lookup "region" =
      some (encFit (X.map FeatureVec.region)) := rfl
  have e1 : catEntry (fitAllEncoders X) "customer_type" f.customer_type =
      .ok (.num (c1 : ℚ)) := by simp only [catEntry, l1, h1]
  have e2 : catEntry (fitAllEncoders X) "customer_industry" f.customer_industry =
      .ok (.num (c2 : ℚ)) := by simp only [catEntry, l2, h2]
  have e3 : catEntry (fitAllEncoders X) "business_unit" f.business_unit =
      .ok (.num (c3 : ℚ)) := by simp only [catEntry, l3, h3]
  have e4 : catEntry (fitAllEncoders X) "bid_level" f.bid_level =
      .ok (.num (c4 : ℚ)) := by simp only [catEntry, l4, h4]
  have e5 : catEntry (fitAllEncoders X) "priority" f.priority =
      .ok (.num (c5 : ℚ)) := by simp only [catEntry, l5, h5]
  have e6 : catEntry (fitAllEncoders X) "complexity" f.complexity =
      .ok (.num (c6 : ℚ)) := by simp only [catEntry, l6, h6]
  have e7 : catEntry (fitAllEncoders X) "region" f.region =
      .ok (.num (c7 : ℚ)) := by simp only [catEntry, l7, h7]
  refine ⟨[f.bid_value, f.estimated_cost, f.profit_margin, f.days_until_due,
    f.complexity_score, f.customer_relationship_score, f.customer_annual_revenue,
    (c1 : ℚ), (c2 : ℚ), f.historical_win_rate, f.avg_bid_value, f.team_size,
    f.review_cycle_count, f.description_length, f.requirements_count,
    (c3 : ℚ), (c4 : ℚ), (c5 : ℚ), (c6 : ℚ), (c7 : ℚ)], ?_⟩
  simp only [encodeRow, e1, e2, e3, e4, e5, e6, e7, bind_ok,
    List.map_cons, List.map_nil]

/-- The whole fitted training matrix encodes successfully. -/
theorem encodeRows_fitAll {X : List FeatureVec} :
    ∀ X0 : List FeatureVec, (∀ f ∈ X0, f ∈ X) →
    ∃ M : List (List ℚ),
      encodeRows (fitAllEncoders X) X0 = .ok (M.map (List.map FeatVal.num)) ∧
      M.length = X0.length := by
  intro X0
  induction X0 with
  | nil => exact fun _ => ⟨[], rfl, rfl⟩
  | cons f fs ih =>
    intro hsub
    obtain ⟨qs, hq⟩ := encodeRow_fitAll (hsub f (List.mem_cons_self f fs))
    obtain ⟨M, hM, hlen⟩ := ih (fun g hg => hsub g (List.mem_cons_of_mem f hg))
    exact ⟨qs :: M, by simp [encodeRows, hq, hM], by simp [hlen]⟩

/-- C9: for every historical bid set with at least 10 eligible rows, on the
training path (fresh encoder state, and `retrain=True` or an incomplete
artifact set), `train_models` hands the risk regressor's `fit` the 80%
training split of the feature matrix — strictly fewer than n rows — but
the risk-label vector computed over all n rows; the sample counts differ,
the fit raises out of `train_models`, and no artifact file is written. -/
theorem risk_fit_length_mismatch (st : MLState) (sto : Storage)
    (allBids : List Bid) (retrain : Bool)
    (hlab : st.label_encoders = [])
    (hpath : retrain = true ∨ _models_exist sto = false)
    (hn : 10 ≤ (prepare_training_data allBids).length) :
    (prepare_training_data allBids).length -
        testCount (prepare_training_data allBids).length <
      (prepare_training_data allBids).length ∧
    (_calculate_risk_scores (prepare_training_data allBids)).length =
      (prepare_training_data allBids).length ∧
    (train_models st sto allBids retrain).raised = true ∧
    (train_models st sto allBids retrain).storage = sto ∧
    (train_models st sto allBids retrain).effects.wrote = false := by
  set df := prepare_training_data allBids with hdf
  have hlt : df.length - testCount df.length < df.length := by
    unfold testCount
    omega
  obtain ⟨M, hM, hMlen⟩ := encodeRows_fitAll (X := df.map (fun r => r.features))
    (df.map (fun r => r.features)) (fun f hf => hf)
  have hMn : M.length = df.length := by
    rw [hMlen, List.length_map]
  have hscaler : scalerFitTransform (M.map (List.map FeatVal.num)) =
      .ok (some ⟨((M.map (List.map FeatVal.num)).headD []).length⟩, M) := by
    simp only [scalerFitTransform, matrixNums_map]
  have hfit1 : GBR.fitOn (M.drop (testCount M.length))
      ((df.map (fun r => (r.target : ℚ))).drop (testCount M.length)) =
      .ok (.fitted (M.drop (testCount M.length))
        ((df.map (fun r => (r.target : ℚ))).drop (testCount M.length))) := by
    unfold GBR.fitOn
    rw [if_pos]
    constructor
    · simp [List.length_drop, List.length_map, hMn]
    · rw [List.length_drop, hMn]
      unfold testCount
      omega
  have hrisklen : (_calculate_risk_scores df).length = df.length := by
    simp [_calculate_risk_scores]
  have hfit2 : GBR.fitOn (M.drop (testCount M.length))
      (_calculate_risk_scores df) = .error () := by
    unfold GBR.fitOn
    rw [if_neg]
    rintro ⟨hlen, -⟩
    rw [List.length_drop, hMn, hrisklen] at hlen
    unfold testCount at hlen
    omega
  have hTF : ∀ st1 : MLState, trainFits st1 sto df M =
      { state :=
          { st1 with
            win_predictor := some (.fitted (M.drop (testCount M.length))
              ((df.map (fun r => (r.target : ℚ))).drop (testCount M.length)))
            risk_predictor := some .unfitted }
        storage := sto
        raised := true
        effects := ⟨true, true, false⟩ } := by
    intro st1
    unfold trainFits train_test_split
    simp only [hfit1, hfit2]
  have hguard : ¬ (df = [] ∨ df.length < 10) := by
    rintro (hc | hc)
    · rw [hc] at hn
      exact absurd hn (by decide)
    · omega
  have hTOD : (trainOnData st sto df).raised = true ∧
      (trainOnData st sto df).storage = sto ∧
      (trainOnData st sto df).effects.wrote = false := by
    unfold trainOnData
    rw [if_neg hguard, hlab, encodeColumns_empty]
    simp only [hM, hscaler, hTF]
    exact ⟨trivial, trivial, trivial⟩
  have hTMeq : train_models st sto allBids retrain = trainOnData st sto df := by
    unfold train_models
    rw [if_neg, ← hdf]
    rintro ⟨h1, h2⟩
    rcases hpath with h | h
    · rw [h] at h1; exact Bool.noConfusion h1
    · rw [h] at h2; exact Bool.noConfusion h2
  exact ⟨hlt, hrisklen, by rw [hTMeq]; exact hTOD.1,
    by rw [hTMeq]; exact hTOD.2.1, by rw [hTMeq]; exact hTOD.2.2⟩

/-- A won bid with a given id, for building training histories. -/
def mkWonBid (i : ℕ) : Bid := { sampleBid with id := i, status := .won }

/-- Ten eligible (won) historical bids. -/
def tenBids : List Bid := (List.range 10).map mkWonBid

/-- C9 witness: on a concrete ten-bid history with a fresh predictor and no
artifacts, training raises at the risk fit and writes nothing. -/
theorem risk_fit_length_mismatch_witness :
    (prepare_training_data tenBids).length -
        testCount (prepare_training_data tenBids).length <
      (prepare_training_data tenBids).length ∧
    (_calculate_risk_scores (prepare_training_data tenBids)).length =
      (prepare_training_data tenBids).length ∧
    (train_models emptyState emptyStorage tenBids true).raised = true ∧
    (train_models emptyState emptyStorage tenBids true).storage = emptyStorage ∧
    (train_models emptyState emptyStorage tenBids true).effects.wrote = false :=
  risk_fit_length_mismatch emptyState emptyStorage tenBids true rfl
    (Or.inl rfl) (by decide)

end BidReview
